import Mathlib

/-!
# Verification of the `ibei` Bose-Einstein integral calculator

This file gives a shallow embedding of `src/ibei/models.py` (the `BEI`
value object, its evaluation methods `upper`, `lower`, `full`,
`photon_flux`, `radiant_power_flux` and derived properties, the attrs
constructor validation, and the `DeVosSolarcell.power_density` method)
and proves properties of the embedded definitions.

Modelling conventions:
* Finite machine floats are modelled by real numbers `ℝ`; the external
  special-function library (`mpmath`) is modelled by the defining series
  of the functions it computes (`polylog`, `zeta`) and by Mathlib's
  `Real.Gamma`.
* `astropy.units.Quantity` values appear twice: a value-level model
  (plain `ℝ`, all quantities expressed in decomposed SI values) used for
  the numerical claims, and a dimension-tracking model (`Qty`, a value
  together with an SI dimension vector) used for the unit claims.
* The attrs constructor with its converters and validators is modelled
  as an executable function over exact rationals returning
  `Except Err _`, where `Err.range` stands for Python's `ValueError`
  and `Err.type` for `TypeError`.
-/

open scoped Classical

namespace Ibei

/-! ## Physical constants (values of `astropy.constants`, SI) -/

/-- Boltzmann constant `astropy.constants.k_B` in J/K (exact SI value). -/
noncomputable def k_B : ℝ := 1.380649e-23

/-- Planck constant `astropy.constants.h` in J·s (exact SI value). -/
noncomputable def h_pl : ℝ := 6.62607015e-34

/-- Speed of light `astropy.constants.c` in m/s (exact SI value). -/
noncomputable def c_0 : ℝ := 299792458

/-- Stefan-Boltzmann constant `astropy.constants.sigma_sb` in W m⁻² K⁻⁴.
In SI it is the derived exact value `2π⁵k_B⁴/(15h³c²)`. -/
noncomputable def sigma_sb : ℝ := 2 * Real.pi ^ 5 * k_B ^ 4 / (15 * h_pl ^ 3 * c_0 ^ 2)

/-! ## Special functions of the external `mpmath` collaborator -/

/-- Polylogarithm `mpmath.polylog`: `Li_k(x) = Σ_{n≥1} xⁿ/nᵏ`.  The sum is
taken over all of `ℕ`; for `k ≥ 1` the `n = 0` term is `1/0 = 0` by the
division-by-zero convention, so this agrees with the series from `n = 1`.
All call sites in the source use `k ≥ 1`. -/
noncomputable def Li (k : ℕ) (x : ℝ) : ℝ := tsum (fun n : ℕ => x ^ n / (n : ℝ) ^ k)

/-- Riemann zeta `mpmath.zeta` at an integer argument `k ≥ 2`, via its
Dirichlet series (the `n = 0` term is `0` by the division-by-zero
convention). -/
noncomputable def zetaR (k : ℕ) : ℝ := tsum (fun n : ℕ => 1 / (n : ℝ) ^ k)

/-! ## The BEI value object (value-level model)

Fields hold the SI-decomposed value of the corresponding
`astropy.units.Quantity` attribute: energies in J, temperature in K.
-/

/-- The four validated fields of a `BEI` instance (`models.py`, class
`BEI`).  `order` is the non-negative integer order `m`; the remaining
fields are SI values (energies in J, temperature in K). -/
structure BEI where
  order : ℕ
  energy_bound : ℝ
  temperature : ℝ
  chemical_potential : ℝ

/-- The construction invariants enforced by the attrs validators:
`energy_bound ≥ 0`, `temperature > 0`, `chemical_potential ≥ 0`. -/
def BEI.Valid (b : BEI) : Prop :=
  0 ≤ b.energy_bound ∧ 0 < b.temperature ∧ 0 ≤ b.chemical_potential

/-- `BEI.kT`: product of Boltzmann's constant and temperature
(`(self.temperature * astropy.constants.k_B).decompose()`). -/
noncomputable def BEI.kT (b : BEI) : ℝ := b.temperature * k_B

/-- `BEI.reduced_energy_bound`: `(self.energy_bound / self.kT).decompose()`. -/
noncomputable def BEI.reduced_energy_bound (b : BEI) : ℝ := b.energy_bound / b.kT

/-- `BEI.reduced_chemical_potential`: `(self.chemical_potential / self.kT).decompose()`. -/
noncomputable def BEI.reduced_chemical_potential (b : BEI) : ℝ :=
  b.chemical_potential / b.kT

/-- `BEI.prefactor`: `(2π · kT^(order+1)) / (h³c²)`. -/
noncomputable def BEI.prefactor (b : BEI) : ℝ :=
  2 * Real.pi * b.kT ^ (b.order + 1) / (h_pl ^ 3 * c_0 ^ 2)

/-- `BEI.upper`: the four-branch evaluation of the upper-incomplete
Bose-Einstein integral, translated line by line from `models.py`.
The Python loop variable runs `indx = 1, ..., order+1` and sets
`index = order - indx + 1` (computed in `ℤ`, always `≥ 0` in range),
which equals `order + 1 - indx` in truncated `ℕ` subtraction. -/
noncomputable def BEI.upper (b : BEI) : ℝ :=
  let real_arg : ℝ :=
    Real.exp (b.reduced_chemical_potential - b.reduced_energy_bound)
  if b.reduced_chemical_potential = 0 ∧ b.reduced_energy_bound = 0 then
    Li (b.order + 1) real_arg * b.prefactor * (Nat.factorial b.order : ℝ)
  else if b.reduced_chemical_potential ≥ b.reduced_energy_bound then
    0 * b.prefactor * (Nat.factorial b.order : ℝ)
  else if real_arg = 0 then
    0 * b.prefactor * (Nat.factorial b.order : ℝ)
  else
    b.prefactor *
      (∑ indx in Finset.Icc 1 (b.order + 1),
        b.reduced_energy_bound ^ (b.order + 1 - indx) * Li indx real_arg /
          (Nat.factorial (b.order + 1 - indx) : ℝ)) *
      (Nat.factorial b.order : ℝ)

/-- `BEI.full`: the full Bose-Einstein integral, translated from
`models.py` (`float(mpmath.gamma(self.order + 1))` is `Real.Gamma`). -/
noncomputable def BEI.full (b : BEI) : ℝ :=
  if 0 < b.reduced_chemical_potential then
    0 * b.prefactor
  else
    b.prefactor * Real.Gamma ((b.order : ℝ) + 1) *
      Li (b.order + 1) (Real.exp b.reduced_chemical_potential)

/-- `BEI.lower`: defined in the source as `self.full() - self.upper()`. -/
noncomputable def BEI.lower (b : BEI) : ℝ := b.full - b.upper

/-- `BEI.photon_flux`: the closed form
`4π ζ(3) kT³ / (h³c²)`, translated from `models.py`; it does not call
`full`. -/
noncomputable def BEI.photon_flux (b : BEI) : ℝ :=
  4 * Real.pi * zetaR 3 * b.kT ^ 3 / (h_pl ^ 3 * c_0 ^ 2)

/-- `BEI.radiant_power_flux`: the Stefan-Boltzmann law
`sigma_sb * temperature⁴`, translated from `models.py`. -/
noncomputable def BEI.radiant_power_flux (b : BEI) : ℝ :=
  sigma_sb * b.temperature ^ 4

/-! ## The spec's four-branch definition of `upper` and branch
definition of `full`, written from the specification's words, for
comparison with the translations from the source. -/

/-- The specification's four-branch definition of the upper-incomplete
integral (spec §4.1, `upper()`), with `x = exp(μ̃ − Ẽ)`:
branch 1 gives `prefactor · m! · Li_{m+1}(1)`, branch 2 and 3 give `0`,
branch 4 gives `prefactor · m! · Σ_{k=1}^{m+1} Ẽ^{m+1-k} Li_k(x)/(m+1-k)!`. -/
noncomputable def upper_spec (b : BEI) : ℝ :=
  if b.reduced_chemical_potential = 0 ∧ b.reduced_energy_bound = 0 then
    b.prefactor * (Nat.factorial b.order : ℝ) * Li (b.order + 1) 1
  else if b.reduced_chemical_potential ≥ b.reduced_energy_bound then
    0
  else if Real.exp (b.reduced_chemical_potential - b.reduced_energy_bound) = 0 then
    0
  else
    b.prefactor * (Nat.factorial b.order : ℝ) *
      ∑ k in Finset.Icc 1 (b.order + 1),
        b.reduced_energy_bound ^ (b.order + 1 - k) *
          Li k (Real.exp (b.reduced_chemical_potential - b.reduced_energy_bound)) /
          (Nat.factorial (b.order + 1 - k) : ℝ)

/-- The specification's definition of the full integral (spec §4.1,
`full()`): zero when the reduced chemical potential is positive, else
`prefactor · Γ(order+1) · Li_{order+1}(exp μ̃)`. -/
noncomputable def full_spec (b : BEI) : ℝ :=
  if 0 < b.reduced_chemical_potential then
    0
  else
    b.prefactor * Real.Gamma ((b.order : ℝ) + 1) *
      Li (b.order + 1) (Real.exp b.reduced_chemical_potential)

/-! ## Claim theorems C1-C3 -/

/-- C1: for every `BEI` instance, `upper()` is computed by the spec's
four-branch definition in the spec's precedence order: the singular
branch gives `prefactor · order! · Li_{order+1}(1)`, the branch
`reduced_chemical_potential ≥ reduced_energy_bound` and the
`x = 0` branch give exactly zero, and the general branch gives
`prefactor · order! · Σ_{k=1}^{order+1} Ẽ^{order+1-k} Li_k(x)/(order+1-k)!`. -/
theorem upper_eq_upper_spec (b : BEI) : b.upper = upper_spec b := by
  simp only [BEI.upper, upper_spec]
  split_ifs with h1 h2 h3
  · rw [h1.1, h1.2]
    rw [sub_zero, Real.exp_zero]
    ring
  · ring
  · ring
  · ring

/-- C2: for every `BEI` instance, `lower()` is exactly
`full() − upper()`, equivalently `lower() + upper() = full()`. -/
theorem lower_add_upper_eq_full (b : BEI) :
    b.lower = b.full - b.upper ∧ b.lower + b.upper = b.full := by
  constructor
  · rfl
  · unfold BEI.lower
    ring

/-! ## Helper lemmas: positivity and special values -/

theorem k_B_pos : 0 < k_B := by norm_num [k_B]

theorem h_pl_pos : 0 < h_pl := by norm_num [h_pl]

theorem c_0_pos : 0 < c_0 := by norm_num [c_0]

theorem kT_pos (b : BEI) (hT : 0 < b.temperature) : 0 < b.kT :=
  mul_pos hT k_B_pos

theorem prefactor_pos (b : BEI) (hT : 0 < b.temperature) : 0 < b.prefactor :=
  div_pos (mul_pos (mul_pos two_pos Real.pi_pos) (pow_pos (kT_pos b hT) _))
    (mul_pos (pow_pos h_pl_pos 3) (pow_pos c_0_pos 2))

theorem Li_one (k : ℕ) : Li k 1 = zetaR k := by
  unfold Li zetaR
  simp [one_pow]

theorem Li_summable {x : ℝ} (k : ℕ) (h0 : 0 ≤ x) (h1 : x < 1) :
    Summable (fun n : ℕ => x ^ n / (n : ℝ) ^ k) := by
  refine Summable.of_nonneg_of_le (fun n => by positivity) (fun n => ?_)
    (summable_geometric_of_lt_one h0 h1)
  rcases Nat.eq_zero_or_pos n with hn | hn
  · subst hn
    rcases Nat.eq_zero_or_pos k with hk | hk
    · simp [hk]
    · rw [Nat.cast_zero, zero_pow hk.ne']
      simp
  · have hcast : (1 : ℝ) ≤ (n : ℝ) := by exact_mod_cast hn
    have hnk : (1 : ℝ) ≤ (n : ℝ) ^ k :=
      le_trans (le_of_eq (one_pow k).symm) (pow_le_pow_left₀ zero_le_one hcast k)
    exact div_le_self (pow_nonneg h0 n) hnk

theorem Li_pos {x : ℝ} (k : ℕ) (h0 : 0 < x) (h1 : x < 1) : 0 < Li k x := by
  unfold Li
  refine tsum_pos (Li_summable k h0.le h1) (fun n => by positivity) 1 ?_
  simp [h0]

theorem zetaR_summable {k : ℕ} (hk : 2 ≤ k) :
    Summable (fun n : ℕ => 1 / (n : ℝ) ^ k) :=
  Real.summable_one_div_nat_pow.mpr hk

theorem zetaR_pos {k : ℕ} (hk : 2 ≤ k) : 0 < zetaR k := by
  unfold zetaR
  refine tsum_pos (zetaR_summable hk) (fun n => by positivity) 1 ?_
  norm_num

theorem zetaR_one_eq_zero : zetaR 1 = 0 := by
  unfold zetaR
  apply tsum_eq_zero_of_not_summable
  simp only [pow_one]
  exact Real.not_summable_one_div_natCast

/-- C3: for every `BEI` instance, `full()` returns exactly zero when the
reduced chemical potential is positive, and otherwise returns
`prefactor · Γ(order+1) · Li_{order+1}(exp(reduced_chemical_potential))`,
with `Γ` the ordinary gamma function. -/
theorem full_eq_full_spec (b : BEI) : b.full = full_spec b := by
  unfold BEI.full full_spec
  split_ifs
  · ring
  · rfl

/-! ## Claim theorems C5-C7 and C9 -/

/-- C5: `photon_flux()` is the independent closed form
`4π ζ(3) kT³/(h³c²)` (see its definition, which does not mention
`full`), and for every validly constructed `BEI` with `order = 2` and
`chemical_potential = 0` it equals `full()`. -/
theorem photon_flux_eq_full (b : BEI) (h2 : b.order = 2)
    (hmu : b.chemical_potential = 0) : b.photon_flux = b.full := by
  have hrcp : b.reduced_chemical_potential = 0 := by
    simp [BEI.reduced_chemical_potential, hmu]
  have hg : Real.Gamma (((2 : ℕ) : ℝ) + 1) = ((Nat.factorial 2 : ℕ) : ℝ) :=
    Real.Gamma_nat_eq_factorial 2
  simp only [BEI.photon_flux, BEI.full, BEI.prefactor, hrcp, h2,
    lt_self_iff_false, if_false, Real.exp_zero, Li_one, hg]
  norm_num [Nat.factorial]
  ring

/-- C5 witness: for the instance `order = 2`, `energy_bound = 1`,
`temperature = 300`, `chemical_potential = 0`, `photon_flux()` equals
`full()`. -/
theorem photon_flux_eq_full_witness :
    (BEI.mk 2 1 300 0).photon_flux = (BEI.mk 2 1 300 0).full :=
  photon_flux_eq_full (BEI.mk 2 1 300 0) rfl rfl

/-- C6: `radiant_power_flux()` is computed directly as
`sigma_sb · temperature⁴`, and for every validly constructed `BEI` with
`order = 3` and `chemical_potential = 0` it equals `full()`. -/
theorem radiant_power_flux_eq_full (b : BEI) (h3 : b.order = 3)
    (hmu : b.chemical_potential = 0) :
    b.full = b.radiant_power_flux ∧
      b.radiant_power_flux = sigma_sb * b.temperature ^ 4 := by
  refine ⟨?_, rfl⟩
  have hrcp : b.reduced_chemical_potential = 0 := by
    simp [BEI.reduced_chemical_potential, hmu]
  have hz4 : zetaR 4 = Real.pi ^ 4 / 90 := by
    unfold zetaR
    exact hasSum_zeta_four.tsum_eq
  have hg : Real.Gamma (((3 : ℕ) : ℝ) + 1) = ((Nat.factorial 3 : ℕ) : ℝ) :=
    Real.Gamma_nat_eq_factorial 3
  have hh : h_pl ≠ 0 := ne_of_gt h_pl_pos
  have hc : c_0 ≠ 0 := ne_of_gt c_0_pos
  simp only [BEI.full, BEI.radiant_power_flux, BEI.prefactor, BEI.kT, hrcp, h3,
    lt_self_iff_false, if_false, Real.exp_zero, Li_one, hg, hz4, sigma_sb]
  norm_num [Nat.factorial]
  field_simp
  ring

/-- C6 witness: for the instance `order = 3`, `energy_bound = 1`,
`temperature = 300`, `chemical_potential = 0`, `full()` equals
`radiant_power_flux()`, which is `sigma_sb · 300⁴`. -/
theorem radiant_power_flux_eq_full_witness :
    (BEI.mk 3 1 300 0).full = (BEI.mk 3 1 300 0).radiant_power_flux ∧
      (BEI.mk 3 1 300 0).radiant_power_flux = sigma_sb * (300 : ℝ) ^ 4 :=
  radiant_power_flux_eq_full (BEI.mk 3 1 300 0) rfl rfl

/-- C7 counterexample: the validly constructed instance
`order = 0`, `energy_bound = 0`, `temperature = 1`,
`chemical_potential = 0` takes the singular branch, where the series
`Li_1(1) = Σ 1/n` diverges (it is not summable, so the embedded sum is
`0`): `upper()` does not yield a strictly positive value, refuting the
claim for `order = 0`. -/
theorem upper_degenerate_order_zero_not_pos :
    (BEI.mk 0 0 1 0).Valid ∧ (BEI.mk 0 0 1 0).upper = 0 ∧
      ¬ 0 < (BEI.mk 0 0 1 0).upper := by
  have h1 : (BEI.mk 0 0 1 0).reduced_chemical_potential = 0 := by
    simp [BEI.reduced_chemical_potential, BEI.kT]
  have h2 : (BEI.mk 0 0 1 0).reduced_energy_bound = 0 := by
    simp [BEI.reduced_energy_bound, BEI.kT]
  have hupper : (BEI.mk 0 0 1 0).upper = 0 := by
    simp only [BEI.upper, h1, h2, and_self, if_true, sub_zero, Real.exp_zero]
    rw [Li_one, zetaR_one_eq_zero]
    ring
  exact ⟨⟨le_refl 0, one_pos, le_refl 0⟩, hupper, by rw [hupper]; exact lt_irrefl 0⟩

/-- C7 (amended): for every validly constructed `BEI` with
`energy_bound = 0`, `chemical_potential = 0` and `order ≥ 1`, `upper()`
yields a strictly positive result and equals `full()`. -/
theorem upper_pos_and_eq_full_of_zero_bound (b : BEI) (hord : 1 ≤ b.order)
    (hEb : b.energy_bound = 0) (hmu : b.chemical_potential = 0)
    (hT : 0 < b.temperature) : 0 < b.upper ∧ b.upper = b.full := by
  have h1 : b.reduced_chemical_potential = 0 := by
    simp [BEI.reduced_chemical_potential, hmu]
  have h2 : b.reduced_energy_bound = 0 := by
    simp [BEI.reduced_energy_bound, hEb]
  have hupper : b.upper =
      Li (b.order + 1) 1 * b.prefactor * (Nat.factorial b.order : ℝ) := by
    simp only [BEI.upper, h1, h2, and_self, if_true, sub_zero, Real.exp_zero]
  have hfull : b.full =
      b.prefactor * (Nat.factorial b.order : ℝ) * Li (b.order + 1) 1 := by
    simp only [BEI.full, h1, lt_self_iff_false, if_false, Real.exp_zero]
    rw [Real.Gamma_nat_eq_factorial]
  constructor
  · rw [hupper, Li_one]
    have hz : 0 < zetaR (b.order + 1) := zetaR_pos (by omega)
    exact mul_pos (mul_pos hz (prefactor_pos b hT))
      (Nat.cast_pos.mpr (Nat.factorial_pos _))
  · rw [hupper, hfull]
    ring

/-- C7 witness for the amended claim: the instance `order = 1`,
`energy_bound = 0`, `temperature = 1`, `chemical_potential = 0` has a
strictly positive `upper()` equal to `full()`. -/
theorem upper_pos_and_eq_full_of_zero_bound_witness :
    0 < (BEI.mk 1 0 1 0).upper ∧ (BEI.mk 1 0 1 0).upper = (BEI.mk 1 0 1 0).full :=
  upper_pos_and_eq_full_of_zero_bound (BEI.mk 1 0 1 0) (le_refl 1) rfl rfl one_pos

/-- C9: for every validly constructed `BEI` with
`chemical_potential > 0` and
`reduced_chemical_potential < reduced_energy_bound` (the exponential
`exp(μ̃ − Ẽ)` is then automatically positive), `full()` is exactly zero
while `upper()` is strictly positive, so `lower() = full() − upper()` is
strictly negative. -/
theorem lower_neg_of_pos_chemical_potential (b : BEI) (hT : 0 < b.temperature)
    (hmu : 0 < b.chemical_potential)
    (hlt : b.reduced_chemical_potential < b.reduced_energy_bound) :
    b.full = 0 ∧ 0 < b.upper ∧ b.lower < 0 := by
  have hkT : 0 < b.kT := kT_pos b hT
  have hrcp : 0 < b.reduced_chemical_potential := div_pos hmu hkT
  have hfull : b.full = 0 := by
    simp only [BEI.full, if_pos hrcp]
    ring
  have hx0 : 0 < Real.exp (b.reduced_chemical_potential - b.reduced_energy_bound) :=
    Real.exp_pos _
  have hx1 : Real.exp (b.reduced_chemical_potential - b.reduced_energy_bound) < 1 :=
    Real.exp_lt_one_iff.mpr (by linarith)
  have hcond1 : ¬(b.reduced_chemical_potential = 0 ∧ b.reduced_energy_bound = 0) := by
    intro h
    rw [h.1] at hrcp
    exact lt_irrefl 0 hrcp
  have hcond2 : ¬(b.reduced_chemical_potential ≥ b.reduced_energy_bound) :=
    not_le.mpr hlt
  have hupper : 0 < b.upper := by
    simp only [BEI.upper, if_neg hcond1, if_neg hcond2, if_neg hx0.ne']
    refine mul_pos (mul_pos (prefactor_pos b hT) ?_)
      (Nat.cast_pos.mpr (Nat.factorial_pos _))
    refine Finset.sum_pos (fun i hi => ?_) ⟨1, Finset.mem_Icc.mpr ⟨le_refl 1, by omega⟩⟩
    have hreb : 0 < b.reduced_energy_bound := lt_trans hrcp hlt
    exact div_pos (mul_pos (pow_pos hreb _) (Li_pos i hx0 hx1))
      (Nat.cast_pos.mpr (Nat.factorial_pos _))
  refine ⟨hfull, hupper, ?_⟩
  unfold BEI.lower
  rw [hfull]
  linarith

/-- C9 witness: for the instance `order = 2`, `energy_bound = 2`,
`temperature = 1`, `chemical_potential = 1`, `full()` is zero, `upper()`
is strictly positive and `lower()` is strictly negative. -/
theorem lower_neg_of_pos_chemical_potential_witness :
    (BEI.mk 2 2 1 1).full = 0 ∧ 0 < (BEI.mk 2 2 1 1).upper ∧
      (BEI.mk 2 2 1 1).lower < 0 :=
  lower_neg_of_pos_chemical_potential (BEI.mk 2 2 1 1) one_pos one_pos
    (by norm_num [BEI.reduced_chemical_potential, BEI.reduced_energy_bound,
      BEI.kT, k_B])

/-! ## Constructor validation model (attrs converters and validators)

Python's `ValueError` is `Err.range`, `TypeError` is `Err.type`.
Machine numbers are modelled by exact rationals; arguments are taken
already expressed in the field's canonical unit (eV for energies, K for
temperature, V for voltages), so the unit conversion performed by the
`astropy.units.Quantity` converters is the identity on the value. -/

/-- Exception kind raised by the constructors: `range` for Python's
`ValueError` (attrs bound validators), `type` for `TypeError`
(scalar/int coercion validators). -/
inductive Err where
  | range
  | type
deriving DecidableEq

/-- A constructor argument for a quantity field: a scalar value or a
(non-scalar) array. -/
inductive Arg where
  | scalar (x : ℚ)
  | array
deriving DecidableEq

/-- A constructor argument for the `order` field: a numeric value, a
string, or a (non-scalar) array. -/
inductive OrderArg where
  | num (q : ℚ)
  | str (s : String)
  | arr
deriving DecidableEq

/-- Value of a decimal digit character, `none` for non-digits. -/
def digit? (c : Char) : Option ℕ :=
  if '0' ≤ c ∧ c ≤ '9' then some (c.toNat - '0'.toNat) else none

/-- Accumulating decimal parser over the remaining characters. -/
def parseNatAux : List Char → ℕ → Option ℕ
  | [], acc => some acc
  | c :: cs, acc =>
    match digit? c with
    | some d => parseNatAux cs (acc * 10 + d)
    | none => none

/-- Python's `int(str)` on a stripped string: an optional minus sign
followed by at least one decimal digit; any other character (such as the
dot in `"2.0"`) makes it raise `ValueError`, hence `none` here. -/
def pyInt? : List Char → Option ℤ
  | [] => none
  | '-' :: cs =>
    match cs with
    | [] => none
    | _ => (parseNatAux cs 0).map (fun n => -(n : ℤ))
  | cs => (parseNatAux cs 0).map (fun n => (n : ℤ))

/-- `_int_converter` from `models.py`: a string argument is accepted iff
`int(value)` parses (else the `ValueError` is re-raised as `TypeError`);
any other numeric value is accepted iff `int(value) == value`, i.e. iff
it is integer-valued (`2.3` raises `TypeError`, since a rational is
integer-valued iff its reduced denominator is `1`); `int()` of a
non-scalar array raises `TypeError`. -/
def _int_converter : OrderArg → Except Err ℤ
  | OrderArg.str s =>
      match pyInt? s.data with
      | some n => Except.ok n
      | none => Except.error Err.type
  | OrderArg.num q =>
      if q.den = 1 then Except.ok q.num else Except.error Err.type
  | OrderArg.arr => Except.error Err.type

/-- One quantity field's converter-and-validator chain:
`_validate_is_scalar` raises `TypeError` on arrays, then the attrs bound
validator raises `ValueError` when the bound fails.  `strict = true`
selects `gt(0)` (temperature fields); `strict = false` selects `ge(0)`. -/
def checkField (a : Arg) (strict : Bool) : Except Err ℚ :=
  match a with
  | Arg.array => Except.error Err.type
  | Arg.scalar x =>
      if strict then
        if 0 < x then Except.ok x else Except.error Err.range
      else
        if 0 ≤ x then Except.ok x else Except.error Err.range

/-- The validated fields of a constructed `BEI`, at the exact-rational
level (`order` as returned by `_int_converter`; energies in eV,
temperature in K). -/
structure BEIQ where
  order : ℤ
  energy_bound : ℚ
  temperature : ℚ
  chemical_potential : ℚ
deriving DecidableEq

/-- The attrs-generated `BEI` constructor: each field's converter and
validators run in declaration order (`order`, `energy_bound`,
`temperature`, `chemical_potential`) and the first failure is raised. -/
def mkBEI (order : OrderArg) (energy_bound temperature chemical_potential : Arg) :
    Except Err BEIQ :=
  match _int_converter order with
  | Except.error e => Except.error e
  | Except.ok o =>
    match checkField energy_bound false with
    | Except.error e => Except.error e
    | Except.ok eb =>
      match checkField temperature true with
      | Except.error e => Except.error e
      | Except.ok t =>
        match checkField chemical_potential false with
        | Except.error e => Except.error e
        | Except.ok mu => Except.ok (BEIQ.mk o eb t mu)

/-- C4: constructing a `BEI` raises a range error when `temperature ≤ 0`,
`energy_bound < 0` or `chemical_potential < 0`; a type error when a
field is array-valued or when `order` is not coercible to an integer
without truncation (`order = 2.3` = `23/10` is rejected); `order = 2.0`
(an integer-valued numeric) and `order = "2"` succeed and normalize to
the integer `2`; and no error is raised when all four fields satisfy
their bounds. -/
theorem mkBEI_validation :
    (∀ (o : ℤ) (eb t mu : ℚ), 0 ≤ eb → 0 < t → 0 ≤ mu →
      mkBEI (OrderArg.num (o : ℚ)) (Arg.scalar eb) (Arg.scalar t) (Arg.scalar mu) =
        Except.ok (BEIQ.mk o eb t mu)) ∧
    (∀ (o : ℤ) (eb t mu : ℚ), 0 ≤ eb → t ≤ 0 →
      mkBEI (OrderArg.num (o : ℚ)) (Arg.scalar eb) (Arg.scalar t) (Arg.scalar mu) =
        Except.error Err.range) ∧
    (∀ (o : ℤ) (eb t mu : ℚ), eb < 0 →
      mkBEI (OrderArg.num (o : ℚ)) (Arg.scalar eb) (Arg.scalar t) (Arg.scalar mu) =
        Except.error Err.range) ∧
    (∀ (o : ℤ) (eb t mu : ℚ), 0 ≤ eb → 0 < t → mu < 0 →
      mkBEI (OrderArg.num (o : ℚ)) (Arg.scalar eb) (Arg.scalar t) (Arg.scalar mu) =
        Except.error Err.range) ∧
    (∀ (o : ℤ) (t mu : Arg),
      mkBEI (OrderArg.num (o : ℚ)) Arg.array t mu = Except.error Err.type) ∧
    (∀ (o : ℤ) (eb mu : ℚ), 0 ≤ eb →
      mkBEI (OrderArg.num (o : ℚ)) (Arg.scalar eb) Arg.array (Arg.scalar mu) =
        Except.error Err.type) ∧
    (∀ (o : ℤ) (eb t : ℚ), 0 ≤ eb → 0 < t →
      mkBEI (OrderArg.num (o : ℚ)) (Arg.scalar eb) (Arg.scalar t) Arg.array =
        Except.error Err.type) ∧
    (∀ (eb t mu : Arg),
      mkBEI OrderArg.arr eb t mu = Except.error Err.type) ∧
    (∀ (eb t mu : Arg),
      mkBEI (OrderArg.num (23 / 10)) eb t mu = Except.error Err.type) ∧
    (∀ (eb t mu : ℚ), 0 ≤ eb → 0 < t → 0 ≤ mu →
      mkBEI (OrderArg.num 2) (Arg.scalar eb) (Arg.scalar t) (Arg.scalar mu) =
        Except.ok (BEIQ.mk 2 eb t mu)) ∧
    (∀ (eb t mu : ℚ), 0 ≤ eb → 0 < t → 0 ≤ mu →
      mkBEI (OrderArg.str ("2")) (Arg.scalar eb) (Arg.scalar t) (Arg.scalar mu) =
        Except.ok (BEIQ.mk 2 eb t mu)) := by
  refine ⟨?_, ?_, ?_, ?_, ?_, ?_, ?_, ?_, ?_, ?_, ?_⟩
  · intro o eb t mu heb ht hmu
    simp [mkBEI, _int_converter, checkField, Rat.den_intCast, Rat.num_intCast,
      heb, ht, hmu]
  · intro o eb t mu heb ht
    have ht' : ¬(0 < t) := not_lt.mpr ht
    simp [mkBEI, _int_converter, checkField, Rat.den_intCast, Rat.num_intCast,
      heb, ht']
  · intro o eb t mu heb
    have heb' : ¬(0 ≤ eb) := not_le.mpr heb
    simp [mkBEI, _int_converter, checkField, Rat.den_intCast, Rat.num_intCast, heb']
  · intro o eb t mu heb ht hmu
    have hmu' : ¬(0 ≤ mu) := not_le.mpr hmu
    simp [mkBEI, _int_converter, checkField, Rat.den_intCast, Rat.num_intCast,
      heb, ht, hmu']
  · intro o t mu
    simp [mkBEI, _int_converter, checkField, Rat.den_intCast, Rat.num_intCast]
  · intro o eb mu heb
    simp [mkBEI, _int_converter, checkField, Rat.den_intCast, Rat.num_intCast, heb]
  · intro o eb t heb ht
    simp [mkBEI, _int_converter, checkField, Rat.den_intCast, Rat.num_intCast,
      heb, ht]
  · intro eb t mu
    simp [mkBEI, _int_converter]
  · intro eb t mu
    have hden : ((23 : ℚ) / 10).den ≠ 1 := by
      intro h
      rw [Rat.den_eq_one_iff] at h
      have h23 : (10 : ℚ) * ((23 : ℚ) / 10).num = 23 := by
        rw [h]
        norm_num
      have h24 : (10 : ℤ) * ((23 : ℚ) / 10).num = 23 := by exact_mod_cast h23
      omega
    simp [mkBEI, _int_converter, hden]
  · intro eb t mu heb ht hmu
    have hd : ((2 : ℚ)).den = 1 := by decide
    have hn : ((2 : ℚ)).num = 2 := by decide
    simp [mkBEI, _int_converter, checkField, hd, hn, heb, ht, hmu]
  · intro eb t mu heb ht hmu
    have hs : pyInt? ("2" : String).data = some 2 := by decide
    simp [mkBEI, _int_converter, checkField, hs, heb, ht, hmu]

/-- C4 witness: concrete instances of each part of the validation
behaviour (all-valid success, each range error, each type error, the
truncation rejection and the two successful `order` coercions). -/
theorem mkBEI_validation_witness :
    mkBEI (OrderArg.num ((2 : ℤ) : ℚ)) (Arg.scalar 1) (Arg.scalar 300) (Arg.scalar 0) =
      Except.ok (BEIQ.mk 2 1 300 0) ∧
    mkBEI (OrderArg.num ((2 : ℤ) : ℚ)) (Arg.scalar 1) (Arg.scalar 0) (Arg.scalar 0) =
      Except.error Err.range ∧
    mkBEI (OrderArg.num ((2 : ℤ) : ℚ)) (Arg.scalar (-1)) (Arg.scalar 300) (Arg.scalar 0) =
      Except.error Err.range ∧
    mkBEI (OrderArg.num ((2 : ℤ) : ℚ)) (Arg.scalar 1) (Arg.scalar 300) (Arg.scalar (-1)) =
      Except.error Err.range ∧
    mkBEI (OrderArg.num ((2 : ℤ) : ℚ)) Arg.array (Arg.scalar 300) (Arg.scalar 0) =
      Except.error Err.type ∧
    mkBEI (OrderArg.num (23 / 10)) (Arg.scalar 1) (Arg.scalar 300) (Arg.scalar 0) =
      Except.error Err.type ∧
    mkBEI (OrderArg.num 2) (Arg.scalar 1) (Arg.scalar 300) (Arg.scalar 0) =
      Except.ok (BEIQ.mk 2 1 300 0) ∧
    mkBEI (OrderArg.str ("2")) (Arg.scalar 1) (Arg.scalar 300) (Arg.scalar 0) =
      Except.ok (BEIQ.mk 2 1 300 0) := by
  refine ⟨mkBEI_validation.1 2 1 300 0 (by decide) (by decide) (by decide),
    mkBEI_validation.2.1 2 1 0 0 (by decide) (by decide),
    mkBEI_validation.2.2.1 2 (-1) 300 0 (by decide),
    mkBEI_validation.2.2.2.1 2 1 300 (-1) (by decide) (by decide) (by decide),
    mkBEI_validation.2.2.2.2.1 2 (Arg.scalar 300) (Arg.scalar 0),
    mkBEI_validation.2.2.2.2.2.2.2.2.1 (Arg.scalar 1) (Arg.scalar 300) (Arg.scalar 0),
    mkBEI_validation.2.2.2.2.2.2.2.2.2.1 1 300 0 (by decide) (by decide) (by decide),
    mkBEI_validation.2.2.2.2.2.2.2.2.2.2 1 300 0 (by decide) (by decide) (by decide)⟩

/-! ## The DeVos solar cell model -/

/-- Elementary charge `astropy.constants.e.si` in C (exact SI value);
also the value in J of 1 eV. -/
def e_si : ℚ := 1602176634 / 10 ^ 28

/-- Conversion of an energy in J to eV, as performed by the
`chemical_potential` field's converter `Quantity(value, unit=eV)`:
`1 eV = e_si J` exactly. -/
def J_to_eV (x : ℚ) : ℚ := x / e_si

/-- The validated fields of a constructed `DeVosSolarcell` (bandgap in
eV, temperatures in K, voltage in V). -/
structure DeVosQ where
  bandgap : ℚ
  solar_temperature : ℚ
  planetary_temperature : ℚ
  voltage : ℚ
deriving DecidableEq

/-- The attrs-generated `DeVosSolarcell` constructor: fields are
validated in declaration order — `bandgap` (scalar, `ge(0)`),
`solar_temperature` (scalar, `gt(0)`), `planetary_temperature` (scalar,
`gt(0)`), `voltage` (scalar only: no bound validator) — then
`__attrs_post_init__` constructs the internal
`BEI(order=2, energy_bound=bandgap, temperature=solar_temperature,
chemical_potential=0)`. -/
def mkDeVosSolarcell (bandgap solar_temperature planetary_temperature voltage : Arg) :
    Except Err DeVosQ :=
  match checkField bandgap false with
  | Except.error e => Except.error e
  | Except.ok bg =>
    match checkField solar_temperature true with
    | Except.error e => Except.error e
    | Except.ok st =>
      match checkField planetary_temperature true with
      | Except.error e => Except.error e
      | Except.ok pt =>
        match voltage with
        | Arg.array => Except.error Err.type
        | Arg.scalar v =>
          match mkBEI (OrderArg.num 2) (Arg.scalar bg) (Arg.scalar st)
              (Arg.scalar 0) with
          | Except.error e => Except.error e
          | Except.ok _ => Except.ok (DeVosQ.mk bg st pt v)

/-- `DeVosSolarcell.power_density`: `electron_energy = e.si * voltage`
(J); when `bandgap` is zero both fluxes are the zero flux; otherwise a
second `BEI` is constructed at the planetary temperature with
`chemical_potential = electron_energy` (expressed in eV by the field's
converter) — a construction that can raise — and the result value is
`electron_energy * (self.bei.upper() - bei.upper())`.  The upper
integrals are evaluated in the value-level model (fields in SI:
eV values scaled by `e_si` into J). -/
noncomputable def DeVosQ.power_density (d : DeVosQ) : Except Err ℝ :=
  let electron_energy : ℚ := e_si * d.voltage
  if d.bandgap = 0 then
    Except.ok ((electron_energy : ℝ) * (0 - 0))
  else
    match mkBEI (OrderArg.num 2) (Arg.scalar d.bandgap)
        (Arg.scalar d.planetary_temperature)
        (Arg.scalar (J_to_eV electron_energy)) with
    | Except.error e => Except.error e
    | Except.ok cell_bei =>
        Except.ok ((electron_energy : ℝ) *
          ((BEI.mk 2 ((d.bandgap : ℝ) * (e_si : ℝ)) (d.solar_temperature : ℝ)
              0).upper -
            (BEI.mk cell_bei.order.toNat ((cell_bei.energy_bound : ℝ) * (e_si : ℝ))
              (cell_bei.temperature : ℝ)
              ((cell_bei.chemical_potential : ℝ) * (e_si : ℝ))).upper))

/-- C10: the `DeVosSolarcell` constructor accepts any scalar voltage
(the voltage field has no lower bound), but `power_density()` on an
instance with `voltage < 0` and `bandgap > 0` raises a range error at
call time, because the internal `BEI`'s `chemical_potential`
(`e.si * voltage`, negative) is rejected by the `BEI` constructor. -/
theorem deVos_negative_voltage_power_density_raises :
    (∀ (bg st pt v : ℚ), 0 ≤ bg → 0 < st → 0 < pt →
      mkDeVosSolarcell (Arg.scalar bg) (Arg.scalar st) (Arg.scalar pt)
        (Arg.scalar v) = Except.ok (DeVosQ.mk bg st pt v)) ∧
    (∀ d : DeVosQ, d.voltage < 0 → 0 < d.bandgap → 0 < d.planetary_temperature →
      d.power_density = Except.error Err.range) := by
  constructor
  · intro bg st pt v hbg hst hpt
    have hd : ((2 : ℚ)).den = 1 := by decide
    have hn : ((2 : ℚ)).num = 2 := by decide
    simp [mkDeVosSolarcell, checkField, mkBEI, _int_converter, hd, hn,
      hbg, hst, hpt]
  · intro d hv hbg hpt
    have hbg0 : d.bandgap ≠ 0 := ne_of_gt hbg
    have hesi : e_si ≠ 0 := by norm_num [e_si]
    have hconv : J_to_eV (e_si * d.voltage) = d.voltage := by
      unfold J_to_eV
      exact mul_div_cancel_left₀ d.voltage hesi
    have hv' : ¬(0 ≤ d.voltage) := not_le.mpr hv
    have hd : ((2 : ℚ)).den = 1 := by decide
    simp [DeVosQ.power_density, hbg0, hconv, mkBEI, _int_converter, checkField,
      hd, hbg.le, hpt, hv']

/-- C10 witness: the cell `bandgap = 23/20` eV, `solar_temperature =
5762` K, `planetary_temperature = 300` K, `voltage = -1` V is accepted
by the constructor, and its `power_density()` raises a range error. -/
theorem deVos_negative_voltage_power_density_raises_witness :
    mkDeVosSolarcell (Arg.scalar (23 / 20)) (Arg.scalar 5762) (Arg.scalar 300)
      (Arg.scalar (-1)) = Except.ok (DeVosQ.mk (23 / 20) 5762 300 (-1)) ∧
    (DeVosQ.mk (23 / 20) 5762 300 (-1)).power_density = Except.error Err.range :=
  ⟨deVos_negative_voltage_power_density_raises.1 (23 / 20) 5762 300 (-1)
      (by norm_num) (by norm_num) (by norm_num),
    deVos_negative_voltage_power_density_raises.2 (DeVosQ.mk (23 / 20) 5762 300 (-1))
      (by norm_num) (by norm_num) (by norm_num)⟩

/-! ## Unit-dimension model of `astropy.units.Quantity`

The value claims above use the value-level model; this model keeps each
Quantity's decomposed SI unit as a dimension-exponent vector, so unit
statements about the source can be proved.  Addition of Quantities is
partial, as in astropy: adding Quantities of different (decomposed)
units raises `UnitConversionError`, modelled by `none`. -/

/-- SI dimension exponents (mass, length, time, temperature, current). -/
structure Dim where
  mass : ℤ
  length : ℤ
  time : ℤ
  temp : ℤ
  current : ℤ
deriving DecidableEq

/-- The dimensionless dimension. -/
def Dim.one : Dim := Dim.mk 0 0 0 0 0

/-- Dimension of a product. -/
def Dim.mul (a b : Dim) : Dim :=
  Dim.mk (a.mass + b.mass) (a.length + b.length) (a.time + b.time)
    (a.temp + b.temp) (a.current + b.current)

/-- Dimension of a quotient. -/
def Dim.div (a b : Dim) : Dim :=
  Dim.mk (a.mass - b.mass) (a.length - b.length) (a.time - b.time)
    (a.temp - b.temp) (a.current - b.current)

/-- Dimension of a natural power. -/
def Dim.npow (a : Dim) (n : ℕ) : Dim :=
  Dim.mk (a.mass * (n : ℤ)) (a.length * (n : ℤ)) (a.time * (n : ℤ))
    (a.temp * (n : ℤ)) (a.current * (n : ℤ))

/-- An `astropy.units.Quantity` in decomposed SI form: a value and a
dimension. -/
structure Qty where
  val : ℝ
  dim : Dim

/-- Quantity multiplication. -/
noncomputable def Qty.mul (a b : Qty) : Qty := Qty.mk (a.val * b.val) (a.dim.mul b.dim)

/-- Quantity division. -/
noncomputable def Qty.div (a b : Qty) : Qty := Qty.mk (a.val / b.val) (a.dim.div b.dim)

/-- Quantity natural power. -/
noncomputable def Qty.npow (a : Qty) (n : ℕ) : Qty := Qty.mk (a.val ^ n) (a.dim.npow n)

/-- Multiplication of a Quantity by a plain Python number: the unit is
kept (also for the number `0`). -/
noncomputable def Qty.smul (r : ℝ) (a : Qty) : Qty := Qty.mk (r * a.val) a.dim

/-- Quantity addition: astropy raises `UnitConversionError` unless the
units are convertible (equal in decomposed form), modelled by `none`. -/
noncomputable def Qty.add? (a b : Qty) : Option Qty :=
  if a.dim = b.dim then some (Qty.mk (a.val + b.val) a.dim) else none

/-- The SI dimension of an energy (J = kg m² s⁻²). -/
def energyD : Dim := Dim.mk 1 2 (-2) 0 0

/-- `astropy.constants.k_B` with its unit J/K. -/
noncomputable def k_B_q : Qty := Qty.mk k_B (Dim.mk 1 2 (-2) (-1) 0)

/-- `astropy.constants.h` with its unit J·s. -/
noncomputable def h_q : Qty := Qty.mk h_pl (Dim.mk 1 2 (-1) 0 0)

/-- `astropy.constants.c` with its unit m/s. -/
noncomputable def c_q : Qty := Qty.mk c_0 (Dim.mk 0 1 (-1) 0 0)

/-- The `temperature` attribute as a Quantity (K). -/
noncomputable def BEI.temperature_q (b : BEI) : Qty :=
  Qty.mk b.temperature (Dim.mk 0 0 0 1 0)

/-- The `energy_bound` attribute as a Quantity (decomposed: J). -/
noncomputable def BEI.energy_bound_q (b : BEI) : Qty := Qty.mk b.energy_bound energyD

/-- The `chemical_potential` attribute as a Quantity (decomposed: J). -/
noncomputable def BEI.chemical_potential_q (b : BEI) : Qty :=
  Qty.mk b.chemical_potential energyD

/-- `BEI.kT` with its unit. -/
noncomputable def BEI.kT_q (b : BEI) : Qty := b.temperature_q.mul k_B_q

/-- `BEI.reduced_energy_bound` with its unit (dimensionless). -/
noncomputable def BEI.reduced_energy_bound_q (b : BEI) : Qty :=
  b.energy_bound_q.div b.kT_q

/-- `BEI.reduced_chemical_potential` with its unit (dimensionless). -/
noncomputable def BEI.reduced_chemical_potential_q (b : BEI) : Qty :=
  b.chemical_potential_q.div b.kT_q

/-- `BEI.prefactor` with its unit:
`(2π · kT^(order+1)) / (h³c²)`. -/
noncomputable def BEI.prefactor_q (b : BEI) : Qty :=
  (Qty.smul (2 * Real.pi) (b.kT_q.npow (b.order + 1))).div
    ((h_q.npow 3).mul (c_q.npow 2))

/-- One term of the summand loop of `upper()`:
`reduced_energy_bound**index * float(polylog(indx, real_arg)) / factorial(index)`
with `index = order + 1 - indx`; the float factor scales the
dimensionless power of the reduced energy bound. -/
noncomputable def BEI.term_q (b : BEI) (real_arg : ℝ) (indx : ℕ) : Qty :=
  Qty.smul (Li indx real_arg / (Nat.factorial (b.order + 1 - indx) : ℝ))
    (b.reduced_energy_bound_q.npow (b.order + 1 - indx))

/-- The summand accumulation loop of `upper()`: starting from the plain
number `0` (dimensionless), the terms for `indx = 1, ..., order+1` are
added with Quantity addition. -/
noncomputable def BEI.summand_q (b : BEI) (real_arg : ℝ) : Option Qty :=
  (List.range' 1 (b.order + 1)).foldl
    (fun acc i => acc.bind (fun s => s.add? (b.term_q real_arg i)))
    (some (Qty.mk 0 Dim.one))

/-- `BEI.upper` in the dimension-tracking model: same four branches as
the value-level `BEI.upper`; branch conditions compare the dimensionless
values, and each branch's arithmetic carries its astropy unit. -/
noncomputable def BEI.upper_q (b : BEI) : Option Qty :=
  let real_arg : ℝ :=
    Real.exp (b.reduced_chemical_potential_q.val - b.reduced_energy_bound_q.val)
  if b.reduced_chemical_potential_q.val = 0 ∧ b.reduced_energy_bound_q.val = 0 then
    some (Qty.smul (Nat.factorial b.order : ℝ)
      (Qty.smul (Li (b.order + 1) real_arg) b.prefactor_q))
  else if b.reduced_chemical_potential_q.val ≥ b.reduced_energy_bound_q.val then
    some (Qty.smul (Nat.factorial b.order : ℝ) (Qty.smul 0 b.prefactor_q))
  else if real_arg = 0 then
    some (Qty.smul (Nat.factorial b.order : ℝ) (Qty.smul 0 b.prefactor_q))
  else
    (b.summand_q real_arg).map
      (fun s => Qty.smul (Nat.factorial b.order : ℝ) (b.prefactor_q.mul s))

theorem term_q_dim (b : BEI) (x : ℝ) (i : ℕ) : (b.term_q x i).dim = Dim.one := by
  simp [BEI.term_q, Qty.smul, Qty.npow, BEI.reduced_energy_bound_q, Qty.div,
    BEI.energy_bound_q, BEI.kT_q, Qty.mul, BEI.temperature_q, k_B_q, energyD,
    Dim.div, Dim.mul, Dim.npow, Dim.one]

theorem summand_q_dim (b : BEI) (x : ℝ) :
    ∃ s : Qty, b.summand_q x = some s ∧ s.dim = Dim.one := by
  have key : ∀ (l : List ℕ) (a : Qty), a.dim = Dim.one →
      ∃ s : Qty,
        l.foldl (fun acc i => acc.bind (fun s => s.add? (b.term_q x i))) (some a) =
          some s ∧ s.dim = Dim.one := by
    intro l
    induction l with
    | nil => exact fun a ha => ⟨a, rfl, ha⟩
    | cons i l ih =>
      intro a ha
      have hstep : a.add? (b.term_q x i) =
          some (Qty.mk (a.val + (b.term_q x i).val) a.dim) := by
        unfold Qty.add?
        rw [if_pos (by rw [ha, term_q_dim])]
      simpa [hstep] using ih (Qty.mk (a.val + (b.term_q x i).val) a.dim) ha
  exact key (List.range' 1 (b.order + 1)) (Qty.mk 0 Dim.one) rfl

theorem prefactor_q_dim_ne_one (b : BEI) : b.prefactor_q.dim ≠ Dim.one := by
  intro h
  have htime := congrArg Dim.time h
  simp [BEI.prefactor_q, Qty.div, Qty.smul, Qty.mul, Qty.npow, BEI.kT_q,
    BEI.temperature_q, k_B_q, h_q, c_q, Dim.div, Dim.mul, Dim.npow, Dim.one] at htime
  omega

/-- C8: in every one of the four branches, `upper()` returns a Quantity
(the dimensionless summation raises no unit error) whose unit equals
the unit of the `prefactor` property, and that unit is not the
dimensionless one — the zero results of the two zero branches carry the
same unit as the general case. -/
theorem upper_q_unit_eq_prefactor_unit (b : BEI) :
    ∃ q : Qty, b.upper_q = some q ∧ q.dim = b.prefactor_q.dim ∧
      q.dim ≠ Dim.one := by
  simp only [BEI.upper_q]
  split_ifs with h1 h2 h3
  · exact ⟨_, rfl, rfl, prefactor_q_dim_ne_one b⟩
  · exact ⟨_, rfl, rfl, prefactor_q_dim_ne_one b⟩
  · exact ⟨_, rfl, rfl, prefactor_q_dim_ne_one b⟩
  · obtain ⟨s, hs, hdim⟩ := summand_q_dim b
      (Real.exp (b.reduced_chemical_potential_q.val - b.reduced_energy_bound_q.val))
    rw [hs]
    have hq : (Qty.smul (Nat.factorial b.order : ℝ) (b.prefactor_q.mul s)).dim =
        b.prefactor_q.dim := by
      simp [Qty.smul, Qty.mul, hdim, Dim.mul, Dim.one]
    exact ⟨_, rfl, hq, hq ▸ prefactor_q_dim_ne_one b⟩

end Ibei
